import Mathlib

/-!
Verification of the Menu telegram bot's core algorithms: recipe scaling
(`utils.scale_ingredients`), the meal-plan → shopping-list aggregation
(`database.get_shopping_list`), recipe creation/deletion against the SQLite
schema (`database.add_dish`, `database.delete_dish`, `database.delete_meal_plan`)
and the reminder jobs (`states.send_reminder_job`,
`handlers.schedule_existing_reminders`).

Conventions of the embedding:
* SQLite `REAL` values are modelled as `Rat` (the claims are about exact
  arithmetic identities, which `Rat` makes decidable); nullable columns as
  `Option _`.
* Python's truthiness coercion `x or d` on a nullable number maps `None`
  and `0` to `d`; it is embedded as `orElse1`.
* Python's `str.lower()` lowercases Unicode text.  It is embedded (for the
  Latin and Cyrillic letters the bot's data uses) as `pyLower`.  SQLite's
  built-in `LOWER()` folds ONLY ASCII letters (documented SQLite behaviour);
  it is embedded separately as `sqliteLower`.  The two differ on Cyrillic
  input, which matters for the duplicate-name check in `add_dish`.
-/

/-- Lowercase one character the way Python's `str.lower` does, restricted to
the ASCII and Cyrillic ranges occurring in this repository's data: `A`–`Z`
maps down by 32, `А`–`Я` (U+0410–U+042F) maps down by 32 to `а`–`я`,
`Ё` (U+0401) maps to `ё` (U+0451). -/
def pyLowerChar (c : Char) : Char :=
  if 'A' ≤ c ∧ c ≤ 'Z' then Char.ofNat (c.toNat + 32)
  else if 'А' ≤ c ∧ c ≤ 'Я' then Char.ofNat (c.toNat + 32)
  else if c = 'Ё' then 'ё'
  else c

/-- Python `str.lower()` (on the character ranges the bot handles). -/
def pyLower (s : String) : String := ⟨s.data.map pyLowerChar⟩

/-- SQLite's built-in `LOWER(X)`: folds ASCII `A`–`Z` only; every non-ASCII
character (in particular Cyrillic) is returned unchanged. -/
def sqliteLowerChar (c : Char) : Char :=
  if 'A' ≤ c ∧ c ≤ 'Z' then Char.ofNat (c.toNat + 32) else c

/-- SQLite `LOWER` on a string (ASCII-only case folding). -/
def sqliteLower (s : String) : String := ⟨s.data.map sqliteLowerChar⟩

/-- Whitespace characters stripped by Python's `str.strip()` (the ASCII ones
the bot's text can contain). -/
def pyWS (c : Char) : Bool := c = ' ' ∨ c = '\t' ∨ c = '\n' ∨ c = '\r'

/-- Drop leading whitespace from a character list. -/
def dropLeadingWS : List Char → List Char
  | [] => []
  | c :: rest => if pyWS c then dropLeadingWS rest else c :: rest

/-- Python `str.strip()`: remove whitespace from both ends. -/
def pyStrip (s : String) : String :=
  ⟨(dropLeadingWS ((dropLeadingWS s.data).reverse)).reverse⟩

/-- Python `x or d` for a nullable number `x` with `d = 1`:
`None` and `0` both give `1`. -/
def orElse1 : Option Rat → Rat
  | none => 1
  | some v => if v = 0 then 1 else v

/-- One ingredient line as handled by `utils.scale_ingredients`: the dict has
`name`, optional `quantity`, optional `unit` and four optional macro values. -/
structure Ingredient where
  name : String
  quantity : Option Rat
  unit : Option String
  calories : Option Rat
  protein : Option Rat
  fat : Option Rat
  carbs : Option Rat
deriving Repr, DecidableEq

/-- The loop body of `utils.scale_ingredients`: copy the dict, and multiply
each non-null quantity/macro by the ratio (`(x or 0) * ratio` equals
`x * ratio` because the branch runs only when `x is not None`); null fields
pass through unchanged. -/
def scaleIngredient (ratio : Rat) (ing : Ingredient) : Ingredient :=
  { ing with
    quantity := ing.quantity.map (· * ratio)
    calories := ing.calories.map (· * ratio)
    protein := ing.protein.map (· * ratio)
    fat := ing.fat.map (· * ratio)
    carbs := ing.carbs.map (· * ratio) }

/-- Embeds `utils.scale_ingredients(ingredients, base_servings, new_servings)`:
ratio is `new/base` unless `base ≤ 0`, in which case it is `1.0`. -/
def scale_ingredients (ingredients : List Ingredient)
    (base_servings new_servings : Rat) : List Ingredient :=
  let ratio := if base_servings ≤ 0 then 1 else new_servings / base_servings
  ingredients.map (scaleIngredient ratio)

lemma list_map_eq_self {α : Type} (l : List α) (f : α → α)
    (h : ∀ a, f a = a) : l.map f = l := by
  induction l with
  | nil => rfl
  | cons hd tl ih => simp [h, ih]

lemma scaleIngredient_one (ing : Ingredient) : scaleIngredient 1 ing = ing := by
  have ho : ∀ o : Option Rat, o.map (· * 1) = o := by
    intro o; cases o <;> simp
  cases ing
  simp [scaleIngredient, ho]

lemma scaleIngredient_comp (r s : Rat) (h : ∀ x : Rat, x * r * s = x)
    (ing : Ingredient) : scaleIngredient s (scaleIngredient r ing) = ing := by
  have ho : ∀ o : Option Rat, (o.map (· * r)).map (· * s) = o := by
    intro o; cases o <;> simp [h]
  cases ing
  simp [scaleIngredient, ho]

/-- C4: with a base serving count `B ≤ 0` the scaling operation substitutes
ratio `1.0`: every ingredient (quantities, macros, nulls alike) is returned
unchanged, for any target serving count, and no failure occurs (the function
is total). -/
theorem scale_ingredients_nonpos_base_id (ings : List Ingredient)
    (B N : Rat) (h : B ≤ 0) : scale_ingredients ings B N = ings := by
  unfold scale_ingredients
  simp only [if_pos h]
  exact list_map_eq_self _ _ scaleIngredient_one

/-- Witness for C4 at a concrete input: base `0`, target `5`. -/
theorem scale_ingredients_nonpos_base_id_witness :
    scale_ingredients [⟨"soup", some 3, some "l", some 10, none, none, none⟩]
      0 5 = [⟨"soup", some 3, some "l", some 10, none, none, none⟩] :=
  scale_ingredients_nonpos_base_id _ 0 5 (by norm_num)

/-- C5: scaling from base `B` to target `N` and then from base `N` back to
target `B` (both positive) is the identity on every ingredient: each quantity
and macro value returns to its original exactly (the arithmetic is exact over
`Rat`, so the claim's floating-point tolerance is met with slack zero). -/
theorem scale_ingredients_roundtrip (ings : List Ingredient)
    (B N : Rat) (hB : 0 < B) (hN : 0 < N) :
    scale_ingredients (scale_ingredients ings B N) N B = ings := by
  have hB' : ¬ B ≤ 0 := not_le.mpr hB
  have hN' : ¬ N ≤ 0 := not_le.mpr hN
  have hB0 : B ≠ 0 := ne_of_gt hB
  have hN0 : N ≠ 0 := ne_of_gt hN
  unfold scale_ingredients
  simp only [if_neg hB', if_neg hN', List.map_map]
  apply list_map_eq_self
  intro ing
  apply scaleIngredient_comp
  intro x
  field_simp

/-- Witness for C5 at a concrete input: base `2`, target `3` and back. -/
theorem scale_ingredients_roundtrip_witness :
    scale_ingredients
      (scale_ingredients [⟨"carrot", some 4, some "pcs", none, some 1, none, none⟩] 2 3)
      3 2 = [⟨"carrot", some 4, some "pcs", none, some 1, none, none⟩] :=
  scale_ingredients_roundtrip _ 2 3 (by norm_num) (by norm_num)

/-! ## Shopping-list aggregation (`database.get_shopping_list`)

The SQL join produces one row per (meal-plan entry, ingredient) pair
(`LEFT JOIN`, so a dish without ingredients yields one row whose ingredient
columns are all NULL).  The Python loop then builds two dicts: `aggregated`,
keyed by `(ingredient_name.strip().lower(), unit)`, and `plans`, keyed by
`plan_id` (first occurrence wins).  Python dicts preserve insertion order, so
`aggregated` is embedded as an association list processed by a left fold. -/

/-- One row of the join in `database.get_shopping_list`. -/
structure PlanRow where
  plan_id : Nat
  plan_date : String
  meal_type : String
  planned_servings : Option Rat
  dish_id : Nat
  dish_name : String
  base_servings : Option Rat
  ingredient_name : Option String
  quantity : Option Rat
  unit : Option String
  calories : Option Rat
  protein : Option Rat
  fat : Option Rat
  carbs : Option Rat
deriving Repr, DecidableEq

/-- One value of the `aggregated` dict: the literal dict the code builds in
`setdefault` always carries all seven keys, the numeric ones starting at
`0.0`; so the macro fields are total (never absent). -/
structure AggItem where
  name : String
  unit : Option String
  quantity : Rat
  calories : Rat
  protein : Rat
  fat : Rat
  carbs : Rat
deriving Repr, DecidableEq

/-- Embeds `ingredient_name = (row["ingredient_name"] or "").strip()`. -/
def rowName (r : PlanRow) : String := pyStrip (r.ingredient_name.getD "")

/-- Embeds `ratio = (row["planned_servings"] or 1) / (row["base_servings"] or 1)`
(Python `or` sends both `None` and `0` to `1`). -/
def rowRatio (r : PlanRow) : Rat :=
  orElse1 r.planned_servings / orElse1 r.base_servings

/-- Embeds `quantity = (row["quantity"] or 0) * ratio`. -/
def rowContribQ (r : PlanRow) : Rat := r.quantity.getD 0 * rowRatio r

/-- The dict key `(ingredient_name.lower(), row["unit"])`. -/
abbrev AggKey := String × Option String

def rowKey (r : PlanRow) : AggKey := (pyLower (rowName r), r.unit)

/-- Rows with an empty (or whitespace-only) ingredient name are skipped. -/
def rowValid (r : PlanRow) : Bool := rowName r ≠ ""

/-- The dict literal passed to `setdefault`. -/
def freshEntry (name : String) (unit : Option String) : AggItem :=
  ⟨name, unit, 0, 0, 0, 0, 0⟩

/-- Embeds `entry["calories"] += (row["calories"] or 0) * ratio`, guarded by
`if row["calories"] is not None`; and likewise for the other macros. -/
def macroContrib (v : Option Rat) (ratio : Rat) : Rat :=
  match v with
  | none => 0
  | some x => x * ratio

/-- The in-place `+=` updates applied to the dict entry for one row. -/
def applyRowToEntry (r : PlanRow) (e : AggItem) : AggItem :=
  { e with
    quantity := e.quantity + rowContribQ r
    calories := e.calories + macroContrib r.calories (rowRatio r)
    protein := e.protein + macroContrib r.protein (rowRatio r)
    fat := e.fat + macroContrib r.fat (rowRatio r)
    carbs := e.carbs + macroContrib r.carbs (rowRatio r) }

/-- Association-list lookup (the Python dict access). -/
def aggFind (k : AggKey) : List (AggKey × AggItem) → Option AggItem
  | [] => none
  | (k', v) :: rest => if k' = k then some v else aggFind k rest

/-- In-place update of the entry at a key (the Python `entry[...] += ...`,
which mutates the dict value without changing insertion order). -/
def aggUpdate (k : AggKey) (f : AggItem → AggItem) :
    List (AggKey × AggItem) → List (AggKey × AggItem)
  | [] => []
  | (k', v) :: rest =>
      if k' = k then (k', f v) :: rest else (k', v) :: aggUpdate k f rest

/-- The body of the `for row in rows` loop acting on the `aggregated` dict:
skip blank names; `setdefault` inserts a fresh all-zero entry at the end when
the key is new; then the `+=` updates run on the entry at the key. -/
def applyRow (acc : List (AggKey × AggItem)) (r : PlanRow) :
    List (AggKey × AggItem) :=
  if rowName r = "" then acc
  else
    let key := rowKey r
    let acc' :=
      match aggFind key acc with
      | none => acc ++ [(key, freshEntry (rowName r) r.unit)]
      | some _ => acc
    aggUpdate key (applyRowToEntry r) acc'

/-- Stable ascending insertion by `item["name"].lower()`. -/
def insertSorted (a : AggItem) : List AggItem → List AggItem
  | [] => [a]
  | b :: rest =>
      if pyLower b.name < pyLower a.name then b :: insertSorted a rest
      else a :: b :: rest

/-- Embeds `sorted(aggregated.values(), key=lambda item: item["name"].lower())`:
Python's `sorted` is a stable ascending sort; a stable insertion sort
computes the identical list. -/
def pySorted : List AggItem → List AggItem
  | [] => []
  | a :: rest => insertSorted a (pySorted rest)

/-- The `items` half of `database.get_shopping_list`'s result. -/
def get_shopping_list_items (rows : List PlanRow) : List AggItem :=
  pySorted ((rows.foldl applyRow []).map Prod.snd)

/-- One value of the `plans` dict (first row per `plan_id`). -/
structure PlanSummary where
  plan_id : Nat
  plan_date : String
  meal_type : String
  dish_id : Nat
  dish_name : String
  planned_servings : Option Rat
  base_servings : Option Rat
deriving Repr, DecidableEq

/-- The `plans` half of `database.get_shopping_list`: one summary per
distinct `plan_id`, first occurrence order, never filtered on blank
ingredient names (the blank-name `continue` sits after the `plans` insert). -/
def get_shopping_list_plans (rows : List PlanRow) : List PlanSummary :=
  rows.foldl
    (fun acc r =>
      if acc.any (fun p => p.plan_id = r.plan_id) then acc
      else acc ++ [⟨r.plan_id, r.plan_date, r.meal_type, r.dish_id,
                    r.dish_name, r.planned_servings, r.base_servings⟩])
    []

/-- Record: `database.get_shopping_list` returns `{"items": ..., "plans": ...}`. -/
structure ShoppingList where
  items : List AggItem
  plans : List PlanSummary
deriving Repr, DecidableEq

def get_shopping_list (rows : List PlanRow) : ShoppingList :=
  ⟨get_shopping_list_items rows, get_shopping_list_plans rows⟩

/-! ### Association-list and sorting lemmas -/

lemma aggFind_aggUpdate_self (k : AggKey) (f : AggItem → AggItem)
    (l : List (AggKey × AggItem)) :
    aggFind k (aggUpdate k f l) = (aggFind k l).map f := by
  induction l with
  | nil => rfl
  | cons p rest ih =>
    obtain ⟨k', v⟩ := p
    by_cases h : k' = k
    · simp [aggUpdate, aggFind, h]
    · simp [aggUpdate, aggFind, h, ih]

lemma aggFind_aggUpdate_ne (j k : AggKey) (f : AggItem → AggItem)
    (l : List (AggKey × AggItem)) (h : j ≠ k) :
    aggFind j (aggUpdate k f l) = aggFind j l := by
  induction l with
  | nil => rfl
  | cons p rest ih =>
    obtain ⟨k', v⟩ := p
    by_cases h' : k' = k
    · have hkj : ¬ k = j := fun hkj => h hkj.symm
      simp [aggUpdate, aggFind, h', hkj]
    · by_cases h'' : k' = j
      · simp [aggUpdate, aggFind, h', h'', h]
      · simp [aggUpdate, aggFind, h', h'', ih]

lemma aggFind_append (k : AggKey) (l1 l2 : List (AggKey × AggItem)) :
    aggFind k (l1 ++ l2) =
      match aggFind k l1 with
      | some v => some v
      | none => aggFind k l2 := by
  induction l1 with
  | nil => rfl
  | cons p rest ih =>
    obtain ⟨k', v⟩ := p
    by_cases h : k' = k <;> simp [aggFind, h, ih]

lemma aggUpdate_map_fst (k : AggKey) (f : AggItem → AggItem)
    (l : List (AggKey × AggItem)) :
    (aggUpdate k f l).map Prod.fst = l.map Prod.fst := by
  induction l with
  | nil => rfl
  | cons p rest ih =>
    obtain ⟨k', v⟩ := p
    by_cases h : k' = k <;> simp [aggUpdate, h, ih]

lemma mem_aggUpdate (k : AggKey) (f : AggItem → AggItem) :
    ∀ (l : List (AggKey × AggItem)) (p : AggKey × AggItem),
      p ∈ aggUpdate k f l → ∃ q ∈ l, q.1 = p.1 ∧ (p.2 = q.2 ∨ p.2 = f q.2)
  | [], p, hp => by cases hp
  | (k', v) :: rest, p, hp => by
    by_cases h : k' = k
    · simp only [aggUpdate, if_pos h, List.mem_cons] at hp
      rcases hp with hp | hp
      · exact ⟨(k', v), List.mem_cons_self _ _, by rw [hp],
          Or.inr (by rw [hp])⟩
      · exact ⟨p, List.mem_cons_of_mem _ hp, rfl, Or.inl rfl⟩
    · simp only [aggUpdate, if_neg h, List.mem_cons] at hp
      rcases hp with hp | hp
      · exact ⟨(k', v), List.mem_cons_self _ _, by rw [hp],
          Or.inl (by rw [hp])⟩
      · obtain ⟨q, hq, hq1, hq2⟩ := mem_aggUpdate k f rest p hp
        exact ⟨q, List.mem_cons_of_mem _ hq, hq1, hq2⟩

lemma aggFind_eq_none_iff (k : AggKey) :
    ∀ l : List (AggKey × AggItem), aggFind k l = none ↔ k ∉ l.map Prod.fst
  | [] => by simp [aggFind]
  | (k', v) :: rest => by
    by_cases h : k' = k
    · simp [aggFind, h]
    · have hk : ¬ k = k' := fun hk => h hk.symm
      simp [aggFind, h, aggFind_eq_none_iff k rest, hk]

lemma mem_insertSorted (a b : AggItem) (l : List AggItem) :
    b ∈ insertSorted a l ↔ b = a ∨ b ∈ l := by
  induction l with
  | nil => simp [insertSorted]
  | cons c rest ih =>
    by_cases h : pyLower c.name < pyLower a.name
    · simp only [insertSorted, if_pos h, List.mem_cons, ih]
      tauto
    · simp only [insertSorted, if_neg h, List.mem_cons]

lemma mem_pySorted (b : AggItem) (l : List AggItem) :
    b ∈ pySorted l ↔ b ∈ l := by
  induction l with
  | nil => simp [pySorted]
  | cons a rest ih => simp [pySorted, mem_insertSorted, ih]

lemma length_insertSorted (a : AggItem) (l : List AggItem) :
    (insertSorted a l).length = l.length + 1 := by
  induction l with
  | nil => rfl
  | cons c rest ih =>
    by_cases h : pyLower c.name < pyLower a.name <;>
      simp [insertSorted, h, ih]

lemma length_pySorted (l : List AggItem) : (pySorted l).length = l.length := by
  induction l with
  | nil => rfl
  | cons a rest ih => simp [pySorted, length_insertSorted, ih]

/-! ### The aggregation fold -/

/-- One step of the loop, seen through `aggFind`: a valid row whose key is `k`
updates the entry at `k` (starting from the fresh all-zero entry when `k` was
not yet present); every other row leaves the entry at `k` unchanged. -/
lemma aggFind_applyRow (acc : List (AggKey × AggItem)) (r : PlanRow)
    (k : AggKey) :
    aggFind k (applyRow acc r) =
      if rowValid r ∧ rowKey r = k then
        some (applyRowToEntry r
          ((aggFind k acc).getD (freshEntry (rowName r) r.unit)))
      else aggFind k acc := by
  unfold applyRow
  by_cases hv : rowName r = ""
  · have hcond : ¬ (rowValid r ∧ rowKey r = k) := by
      simp [rowValid, hv]
    simp [hv, hcond]
  · simp only [if_neg hv]
    by_cases hk : rowKey r = k
    · subst hk
      have hcond : rowValid r ∧ rowKey r = rowKey r := by
        simp [rowValid, hv]
      rw [if_pos hcond]
      cases hfind : aggFind (rowKey r) acc with
      | none =>
        simp only [hfind]
        rw [aggFind_aggUpdate_self, aggFind_append, hfind]
        simp [aggFind]
      | some e =>
        simp only [hfind]
        rw [aggFind_aggUpdate_self, hfind]
        rfl
    · have hcond : ¬ (rowValid r ∧ rowKey r = k) := fun h => hk h.2
      rw [if_neg hcond]
      cases hfind : aggFind (rowKey r) acc with
      | none =>
        rw [aggFind_aggUpdate_ne _ _ _ _ (fun h => hk h.symm),
            aggFind_append]
        cases hacc : aggFind k acc with
        | none => simp [aggFind, fun h : rowKey r = k => hk h]
        | some e => simp
      | some e =>
        rw [aggFind_aggUpdate_ne _ _ _ _ (fun h => hk h.symm)]

/-- Numeric content of the whole fold, one field at a time: `proj` is any of
the five numeric dict fields and `contrib` the per-row amount the loop adds
to it.  If a key ends up in the dict, its field equals its initial value
(zero when the key was absent from `acc`) plus the sum of the contributions
of the rows of its group. -/
lemma aggFind_foldl_proj (proj : AggItem → Rat) (contrib : PlanRow → Rat)
    (H1 : ∀ r e, proj (applyRowToEntry r e) = proj e + contrib r)
    (H2 : ∀ name unit, proj (freshEntry name unit) = 0) :
    ∀ (rows : List PlanRow) (acc : List (AggKey × AggItem)) (k : AggKey)
      (e : AggItem),
      aggFind k (rows.foldl applyRow acc) = some e →
      proj e = ((aggFind k acc).map proj).getD 0 +
        ((rows.filter fun r => rowValid r && decide (rowKey r = k)).map
          contrib).sum := by
  intro rows
  induction rows with
  | nil =>
    intro acc k e h
    simp only [List.foldl_nil] at h
    simp [h]
  | cons r rows ih =>
    intro acc k e h
    rw [List.foldl_cons] at h
    have hstep := ih (applyRow acc r) k e h
    rw [aggFind_applyRow] at hstep
    by_cases hc : rowValid r ∧ rowKey r = k
    · rw [if_pos hc] at hstep
      simp only [Option.map_some', Option.getD_some] at hstep
      rw [H1] at hstep
      have hbase : proj ((aggFind k acc).getD (freshEntry (rowName r) r.unit))
          = ((aggFind k acc).map proj).getD 0 := by
        cases aggFind k acc with
        | none => simp [H2]
        | some e0 => simp
      rw [hbase] at hstep
      have hfil : (List.filter (fun r => rowValid r && decide (rowKey r = k))
          (r :: rows)) =
          r :: List.filter (fun r => rowValid r && decide (rowKey r = k))
            rows := by
        simp [List.filter_cons, hc.1, hc.2]
      rw [hfil, List.map_cons, List.sum_cons, hstep]
      ring
    · rw [if_neg hc] at hstep
      have hb : (rowValid r && decide (rowKey r = k)) = false := by
        cases hv : rowValid r with
        | false => simp
        | true =>
          have hk : ¬ rowKey r = k := fun hk => hc ⟨hv, hk⟩
          simp [hk]
      have hfil : (List.filter (fun r => rowValid r && decide (rowKey r = k))
          (r :: rows)) =
          List.filter (fun r => rowValid r && decide (rowKey r = k)) rows := by
        simp [List.filter_cons, hb]
      rw [hfil, hstep]

/-- Well-formedness of the `aggregated` dict: each stored key is derived from
its entry's display name and unit, and the keys are pairwise distinct (it is
a dict). -/
def aggWF (l : List (AggKey × AggItem)) : Prop :=
  (∀ p ∈ l, p.1 = (pyLower p.2.name, p.2.unit)) ∧ (l.map Prod.fst).Nodup

lemma aggWF_aggUpdate (k : AggKey) (f : AggItem → AggItem)
    (hf : ∀ e, (f e).name = e.name ∧ (f e).unit = e.unit)
    (l : List (AggKey × AggItem)) (h : aggWF l) : aggWF (aggUpdate k f l) := by
  constructor
  · intro p hp
    obtain ⟨q, hq, hq1, hq2⟩ := mem_aggUpdate k f l p hp
    have hqk := h.1 q hq
    rcases hq2 with h2 | h2
    · rw [← hq1, hqk, h2]
    · rw [← hq1, hqk, h2, (hf q.2).1, (hf q.2).2]
  · rw [aggUpdate_map_fst]
    exact h.2

lemma aggWF_applyRow (acc : List (AggKey × AggItem)) (r : PlanRow)
    (h : aggWF acc) : aggWF (applyRow acc r) := by
  unfold applyRow
  by_cases hv : rowName r = ""
  · simpa [hv] using h
  · simp only [if_neg hv]
    have hf : ∀ e, (applyRowToEntry r e).name = e.name ∧
        (applyRowToEntry r e).unit = e.unit := fun e => ⟨rfl, rfl⟩
    cases hfind : aggFind (rowKey r) acc with
    | some e =>
      simp only
      exact aggWF_aggUpdate _ _ hf _ h
    | none =>
      simp only
      apply aggWF_aggUpdate _ _ hf
      constructor
      · intro p hp
        rcases List.mem_append.mp hp with hp | hp
        · exact h.1 p hp
        · rcases List.mem_singleton.mp hp with rfl
          rfl
      · rw [List.map_append]
        simp only [List.map_cons, List.map_nil]
        rw [List.nodup_append]
        refine ⟨h.2, List.nodup_singleton _, ?_⟩
        intro a ha hb
        rcases List.mem_singleton.mp hb with rfl
        exact (aggFind_eq_none_iff _ _ |>.mp hfind) ha

lemma aggWF_foldl (rows : List PlanRow) :
    ∀ acc : List (AggKey × AggItem), aggWF acc →
      aggWF (rows.foldl applyRow acc) := by
  induction rows with
  | nil => intro acc h; simpa using h
  | cons r rows ih =>
    intro acc h
    rw [List.foldl_cons]
    exact ih _ (aggWF_applyRow acc r h)

lemma aggFind_of_mem_wf :
    ∀ l : List (AggKey × AggItem), aggWF l →
      ∀ p ∈ l, aggFind p.1 l = some p.2
  | [], _, p, hp => by cases hp
  | (k', v) :: rest, h, p, hp => by
    rcases List.mem_cons.mp hp with hp | hp
    · rw [hp]
      simp [aggFind]
    · have hne : ¬ k' = p.1 := by
        intro hk
        have : p.1 ∈ rest.map Prod.fst := List.mem_map_of_mem Prod.fst hp
        rw [← hk] at this
        have hnd := h.2
        simp only [List.map_cons, List.nodup_cons] at hnd
        exact hnd.1 this
      have htail : aggWF rest := by
        refine ⟨fun q hq => h.1 q (List.mem_cons_of_mem _ hq), ?_⟩
        have hnd := h.2
        simp only [List.map_cons, List.nodup_cons] at hnd
        exact hnd.2
      simp only [aggFind, if_neg hne]
      exact aggFind_of_mem_wf rest htail p hp

/-- C1 (amended where the claim's serving-default rule is incomplete: the
code's `row["planned_servings"] or 1` sends a stored `0` — not only NULL —
to the default `1`): every aggregated shopping-list item's quantity equals
the sum, over the joined rows of its (case-insensitively-trimmed name, unit)
group, of `(quantity or 0) * ((planned_servings or 1) / (base_servings or 1))`
— `rowContribQ`. -/
theorem shopping_item_quantity_eq_scaled_sum (rows : List PlanRow)
    (item : AggItem) (h : item ∈ get_shopping_list_items rows) :
    item.quantity =
      ((rows.filter fun r =>
          rowValid r && decide (rowKey r = (pyLower item.name, item.unit))).map
        rowContribQ).sum := by
  unfold get_shopping_list_items at h
  rw [mem_pySorted] at h
  obtain ⟨p, hp, hsnd⟩ := List.mem_map.mp h
  have hwf : aggWF (rows.foldl applyRow []) :=
    aggWF_foldl rows []
      ⟨fun p hp => absurd hp (List.not_mem_nil p), List.nodup_nil⟩
  have hkey := hwf.1 p hp
  have hfind := aggFind_of_mem_wf _ hwf p hp
  have hq := aggFind_foldl_proj AggItem.quantity rowContribQ
    (fun r e => rfl) (fun n u => rfl) rows [] p.1 p.2 hfind
  simp only [aggFind, Option.map_none', Option.getD_none, zero_add] at hq
  rw [hsnd] at hkey hq
  rw [hkey] at hq
  exact hq

/-- Spec §8's example scenario, instantiating C1's witness: dish with base
servings 2, ingredient carrot 4 pcs, planned for 3 servings. -/
def soupRow : PlanRow :=
  { plan_id := 1, plan_date := "2024-06-01", meal_type := "Обед",
    planned_servings := some 3, dish_id := 1, dish_name := "Суп",
    base_servings := some 2, ingredient_name := some "carrot",
    quantity := some 4, unit := some "pcs",
    calories := none, protein := none, fat := none, carbs := none }

/-- Evaluation of the aggregation on the spec's example: one carrot item with
quantity `4 * 3/2 = 6`. -/
lemma get_shopping_list_items_soupRow :
    get_shopping_list_items [soupRow] =
      [⟨"carrot", some "pcs", 6, 0, 0, 0, 0⟩] := by
  have h1 : pyStrip "carrot" = "carrot" := rfl
  have h2 : pyLower "carrot" = "carrot" := rfl
  norm_num [get_shopping_list_items, applyRow, rowName, rowValid, rowKey,
    aggFind, aggUpdate, freshEntry, applyRowToEntry, rowContribQ, rowRatio,
    macroContrib, orElse1, pySorted, insertSorted, soupRow, h1, h2]

/-- Witness for C1's theorem: the carrot item aggregates to `4 * 3/2 = 6`. -/
theorem shopping_item_quantity_eq_scaled_sum_witness :
    (⟨"carrot", some "pcs", 6, 0, 0, 0, 0⟩ : AggItem).quantity =
      (([soupRow].filter fun r =>
          rowValid r && decide (rowKey r = (pyLower "carrot", some "pcs"))).map
        rowContribQ).sum :=
  shopping_item_quantity_eq_scaled_sum [soupRow]
    ⟨"carrot", some "pcs", 6, 0, 0, 0, 0⟩
    (by rw [get_shopping_list_items_soupRow]; exact List.mem_singleton_self _)

/-- A joined row whose stored `planned_servings` is the number `0`, not NULL
(the `meal_plans.servings` column is unconstrained `REAL`). -/
def zeroServingsRow : PlanRow :=
  { plan_id := 2, plan_date := "2024-06-02", meal_type := "Ужин",
    planned_servings := some 0, dish_id := 2, dish_name := "Каша",
    base_servings := some 1, ingredient_name := some "oats",
    quantity := some 5, unit := some "g",
    calories := none, protein := none, fat := none, carbs := none }

/-- Claim C1's per-row quantity formula exactly as worded: ingredient quantity
times `planned_servings / base_servings`, where only a NULL `planned_servings`
counts as 1 (a stored 0 is kept as 0) and a NULL or zero `base_servings`
counts as 1. -/
def claimC1RowQuantity (r : PlanRow) : Rat :=
  r.quantity.getD 0 * (r.planned_servings.getD 1 / orElse1 r.base_servings)

/-- Counterexample to C1 as stated: on the row with `planned_servings = 0`
the claim's formula sums to `0`, but the computed shopping-list quantity is
`5` — the code's `row["planned_servings"] or 1` turns the stored `0` into
`1`, which the claim's "a null planned_servings counts as 1" does not
predict. -/
theorem shopping_quantity_claim_counterexample :
    (get_shopping_list_items [zeroServingsRow]).map AggItem.quantity = [5] ∧
    ([zeroServingsRow].map claimC1RowQuantity).sum = 0 := by
  have h1 : pyStrip "oats" = "oats" := rfl
  have h2 : pyLower "oats" = "oats" := rfl
  constructor
  · norm_num [get_shopping_list_items, applyRow, rowName, rowValid, rowKey,
      aggFind, aggUpdate, freshEntry, applyRowToEntry, rowContribQ, rowRatio,
      macroContrib, orElse1, pySorted, insertSorted, zeroServingsRow, h1, h2]
  · norm_num [claimC1RowQuantity, orElse1, zeroServingsRow]

/-! ### Grouping (claim C2) -/

/-- The spec's grouping criterion: trimmed ingredient names equal
case-insensitively, and units exactly equal (two NULL units count as
equal). -/
def sameGroup (r1 r2 : PlanRow) : Prop :=
  pyLower (rowName r1) = pyLower (rowName r2) ∧ r1.unit = r2.unit

lemma applyRow_nil (r : PlanRow) (h : rowName r ≠ "") :
    applyRow [] r =
      [(rowKey r, applyRowToEntry r (freshEntry (rowName r) r.unit))] := by
  simp [applyRow, aggFind, aggUpdate, h]

lemma applyRow_single (r1 r2 : PlanRow) (e : AggItem)
    (h2 : rowName r2 ≠ "") :
    applyRow [(rowKey r1, e)] r2 =
      if rowKey r1 = rowKey r2 then
        [(rowKey r1, applyRowToEntry r2 e)]
      else
        [(rowKey r1, e),
         (rowKey r2, applyRowToEntry r2 (freshEntry (rowName r2) r2.unit))] := by
  by_cases hk : rowKey r1 = rowKey r2
  · simp [applyRow, aggFind, aggUpdate, h2, hk]
  · simp [applyRow, aggFind, aggUpdate, h2, hk]

/-- C2: two joined rows (with nonblank ingredient names) end up in the same
aggregated item exactly when their stripped names agree case-insensitively
and their units agree exactly: aggregating the two rows produces one item
iff `sameGroup`, two items otherwise. -/
theorem shopping_merge_iff (r1 r2 : PlanRow)
    (h1 : rowValid r1) (h2 : rowValid r2) :
    (get_shopping_list_items [r1, r2]).length = 1 ↔ sameGroup r1 r2 := by
  have hv1 : rowName r1 ≠ "" := by simpa [rowValid] using h1
  have hv2 : rowName r2 ≠ "" := by simpa [rowValid] using h2
  unfold get_shopping_list_items
  rw [show ([r1, r2].foldl applyRow []) = applyRow (applyRow [] r1) r2
        from rfl,
      applyRow_nil r1 hv1, applyRow_single r1 r2 _ hv2]
  by_cases hk : rowKey r1 = rowKey r2
  · rw [if_pos hk]
    simp only [List.map_cons, List.map_nil, length_pySorted, List.length_cons,
      List.length_nil]
    constructor
    · intro _
      exact ⟨congrArg Prod.fst hk, congrArg Prod.snd hk⟩
    · intro _
      trivial
  · rw [if_neg hk]
    simp only [List.map_cons, List.map_nil, length_pySorted, List.length_cons,
      List.length_nil]
    constructor
    · intro habs
      exact absurd habs (by norm_num)
    · intro hsg
      exact absurd (Prod.ext_iff.mpr ⟨hsg.1, hsg.2⟩ : rowKey r1 = rowKey r2) hk

/-- A minimal joined row for grouping experiments. -/
def mkRow (n : Nat) (name : String) (unit : Option String) : PlanRow :=
  { plan_id := n, plan_date := "2024-06-01", meal_type := "Обед",
    planned_servings := some 1, dish_id := n, dish_name := "d",
    base_servings := some 1, ingredient_name := some name,
    quantity := some 1, unit := unit,
    calories := none, protein := none, fat := none, carbs := none }

/-- Witness for C2: "Sugar"/"sugar" with unit "g" merge into one item;
"flour" with units "g" and "kg" stay two items. -/
theorem shopping_merge_iff_witness :
    (get_shopping_list_items
      [mkRow 1 "Sugar" (some "g"), mkRow 2 "sugar" (some "g")]).length = 1 ∧
    (get_shopping_list_items
      [mkRow 3 "flour" (some "g"), mkRow 4 "flour" (some "kg")]).length ≠ 1 := by
  constructor
  · exact (shopping_merge_iff _ _ (by decide) (by decide)).mpr
      ⟨by decide, rfl⟩
  · intro h
    have hsg := (shopping_merge_iff _ _ (by decide) (by decide)).mp h
    exact absurd hsg.2 (by decide)

/-! ### Macro aggregation (claim C3) -/

/-- C3 (amended: when every row of a group has a NULL value for a macro, the
aggregated item still carries that macro — as the number `0` — because the
`setdefault` dict literal always contains all four macro keys initialised to
`0.0`; the macro is never absent): each aggregated item's four macro values
equal the sums, over the rows of its group, of the scaled non-null macro
values, a NULL macro contributing zero. -/
theorem shopping_item_macros_eq_scaled_sums (rows : List PlanRow)
    (item : AggItem) (h : item ∈ get_shopping_list_items rows) :
    item.calories = ((rows.filter fun r =>
        rowValid r && decide (rowKey r = (pyLower item.name, item.unit))).map
          (fun r => macroContrib r.calories (rowRatio r))).sum ∧
    item.protein = ((rows.filter fun r =>
        rowValid r && decide (rowKey r = (pyLower item.name, item.unit))).map
          (fun r => macroContrib r.protein (rowRatio r))).sum ∧
    item.fat = ((rows.filter fun r =>
        rowValid r && decide (rowKey r = (pyLower item.name, item.unit))).map
          (fun r => macroContrib r.fat (rowRatio r))).sum ∧
    item.carbs = ((rows.filter fun r =>
        rowValid r && decide (rowKey r = (pyLower item.name, item.unit))).map
          (fun r => macroContrib r.carbs (rowRatio r))).sum := by
  unfold get_shopping_list_items at h
  rw [mem_pySorted] at h
  obtain ⟨p, hp, hsnd⟩ := List.mem_map.mp h
  have hwf : aggWF (rows.foldl applyRow []) :=
    aggWF_foldl rows []
      ⟨fun p hp => absurd hp (List.not_mem_nil p), List.nodup_nil⟩
  have hkey := hwf.1 p hp
  have hfind := aggFind_of_mem_wf _ hwf p hp
  have hcal := aggFind_foldl_proj AggItem.calories
    (fun r => macroContrib r.calories (rowRatio r))
    (fun r e => rfl) (fun n u => rfl) rows [] p.1 p.2 hfind
  have hpro := aggFind_foldl_proj AggItem.protein
    (fun r => macroContrib r.protein (rowRatio r))
    (fun r e => rfl) (fun n u => rfl) rows [] p.1 p.2 hfind
  have hfat := aggFind_foldl_proj AggItem.fat
    (fun r => macroContrib r.fat (rowRatio r))
    (fun r e => rfl) (fun n u => rfl) rows [] p.1 p.2 hfind
  have hcar := aggFind_foldl_proj AggItem.carbs
    (fun r => macroContrib r.carbs (rowRatio r))
    (fun r e => rfl) (fun n u => rfl) rows [] p.1 p.2 hfind
  simp only [aggFind, Option.map_none', Option.getD_none, zero_add]
    at hcal hpro hfat hcar
  rw [hsnd] at hkey hcal hpro hfat hcar
  rw [hkey] at hcal hpro hfat hcar
  exact ⟨hcal, hpro, hfat, hcar⟩

/-- A dish whose single ingredient line has NULL for every macro column. -/
def nullMacroRow : PlanRow :=
  { plan_id := 3, plan_date := "2024-06-03", meal_type := "Завтрак",
    planned_servings := some 2, dish_id := 3, dish_name := "Tea",
    base_servings := some 1, ingredient_name := some "salt",
    quantity := some 1, unit := none,
    calories := none, protein := none, fat := none, carbs := none }

/-- Counterexample to C3 as stated: every contributing row's calories (and
every other macro) is NULL, yet the aggregated item still carries each macro
— as the number `0`, not as an absent value — because the dict literal in
`setdefault` always initialises all four macro keys to `0.0`. -/
theorem shopping_macro_all_null_counterexample :
    nullMacroRow.calories = none ∧ nullMacroRow.protein = none ∧
    nullMacroRow.fat = none ∧ nullMacroRow.carbs = none ∧
    get_shopping_list_items [nullMacroRow] =
      [⟨"salt", none, 2, 0, 0, 0, 0⟩] := by
  have h1 : pyStrip "salt" = "salt" := rfl
  have h2 : pyLower "salt" = "salt" := rfl
  refine ⟨rfl, rfl, rfl, rfl, ?_⟩
  norm_num [get_shopping_list_items, applyRow, rowName, rowValid, rowKey,
    aggFind, aggUpdate, freshEntry, applyRowToEntry, rowContribQ, rowRatio,
    macroContrib, orElse1, pySorted, insertSorted, nullMacroRow, h1, h2]

/-- A row with a non-null calories value, for C3's witness. -/
def calorieRow : PlanRow :=
  { plan_id := 4, plan_date := "2024-06-04", meal_type := "Обед",
    planned_servings := some 3, dish_id := 4, dish_name := "Rice",
    base_servings := some 2, ingredient_name := some "rice",
    quantity := some 100, unit := some "g",
    calories := some 130, protein := some 2, fat := none, carbs := none }

/-- Evaluation of the aggregation on `calorieRow`: ratio `3/2` scales the
macros, NULL fat/carbs stay `0`. -/
lemma get_shopping_list_items_calorieRow :
    get_shopping_list_items [calorieRow] =
      [⟨"rice", some "g", 150, 195, 3, 0, 0⟩] := by
  have h1 : pyStrip "rice" = "rice" := rfl
  have h2 : pyLower "rice" = "rice" := rfl
  norm_num [get_shopping_list_items, applyRow, rowName, rowValid, rowKey,
    aggFind, aggUpdate, freshEntry, applyRowToEntry, rowContribQ, rowRatio,
    macroContrib, orElse1, pySorted, insertSorted, calorieRow, h1, h2]

/-- Witness for C3's theorem at `calorieRow`. -/
theorem shopping_item_macros_eq_scaled_sums_witness :
    (⟨"rice", some "g", 150, 195, 3, 0, 0⟩ : AggItem).calories =
      (([calorieRow].filter fun r => rowValid r &&
          decide (rowKey r = (pyLower "rice", some "g"))).map
        (fun r => macroContrib r.calories (rowRatio r))).sum ∧
    (⟨"rice", some "g", 150, 195, 3, 0, 0⟩ : AggItem).protein =
      (([calorieRow].filter fun r => rowValid r &&
          decide (rowKey r = (pyLower "rice", some "g"))).map
        (fun r => macroContrib r.protein (rowRatio r))).sum ∧
    (⟨"rice", some "g", 150, 195, 3, 0, 0⟩ : AggItem).fat =
      (([calorieRow].filter fun r => rowValid r &&
          decide (rowKey r = (pyLower "rice", some "g"))).map
        (fun r => macroContrib r.fat (rowRatio r))).sum ∧
    (⟨"rice", some "g", 150, 195, 3, 0, 0⟩ : AggItem).carbs =
      (([calorieRow].filter fun r => rowValid r &&
          decide (rowKey r = (pyLower "rice", some "g"))).map
        (fun r => macroContrib r.carbs (rowRatio r))).sum :=
  shopping_item_macros_eq_scaled_sums [calorieRow]
    ⟨"rice", some "g", 150, 195, 3, 0, 0⟩
    (by rw [get_shopping_list_items_calorieRow]
        exact List.mem_singleton_self _)

/-! ## Persistent store (`database.create_tables` schema)

The SQLite schema with `PRAGMA foreign_keys = ON`.  Referential actions:
`dish_ingredients`, `dish_tags`, `meal_plans` reference `dishes(id)` with
`ON DELETE CASCADE`; `reminders.dish_id` references `dishes(id)` with
`ON DELETE SET NULL`; `reminders.plan_id` references `meal_plans(id)` with
`ON DELETE CASCADE`.  The `shopping_items` and `user_actions` tables are not
touched by any verified claim and are not modelled.  Only the columns the
verified operations read are carried on `dishes`. -/

/-- A row of `dishes`. -/
structure Dish where
  id : Nat
  name : String
  servings : Option Rat
deriving Repr, DecidableEq

/-- A row of `dish_ingredients`. -/
structure IngredientRow where
  dish_id : Nat
  name : String
  quantity : Option Rat
  unit : Option String
  calories : Option Rat
  protein : Option Rat
  fat : Option Rat
  carbs : Option Rat
deriving Repr, DecidableEq

/-- A row of `dish_tags`. -/
structure TagRow where
  dish_id : Nat
  tag : String
deriving Repr, DecidableEq

/-- A row of `meal_plans`. -/
structure MealPlanRow where
  id : Nat
  user_id : String
  chat_id : Int
  dish_id : Nat
  plan_date : String
  meal_type : String
  servings : Option Rat
  notes : Option String
deriving Repr, DecidableEq

/-- A row of `reminders`.  `remind_at` is the absolute fire time in seconds;
the code stores `datetime.isoformat()` output and parses it back with
`datetime.fromisoformat`, so every row written by the code carries a valid
timestamp. -/
structure ReminderRow where
  id : Nat
  user_id : String
  chat_id : Int
  dish_id : Option Nat
  plan_id : Option Nat
  remind_at : Rat
  message : String
  job_name : String
deriving Repr, DecidableEq

/-- The storage state, plus the `dishes` AUTOINCREMENT counter. -/
structure DB where
  dishes : List Dish
  dish_ingredients : List IngredientRow
  dish_tags : List TagRow
  meal_plans : List MealPlanRow
  reminders : List ReminderRow
  next_dish_id : Nat
deriving Repr, DecidableEq

/-- Embeds `database.add_dish(dish_data, ingredients, tags)`: strip the name and
reject an empty one; reject a duplicate found by
`SELECT id FROM dishes WHERE LOWER(name) = LOWER(?)` — SQLite's ASCII-only
`LOWER` — before any insert; otherwise insert the dish row (servings via
Python `or 1`), one `dish_ingredients` row per input with a nonempty name,
and each stripped-lowercased nonempty tag once (`INSERT OR IGNORE` under
`UNIQUE(dish_id, tag)` keeps the first occurrence).  The two `ValueError`s
are the `.error` results, raised before anything is written.  The
`UNIQUE(dish_id, name, unit)` ingredient constraint is not modelled: no
claim feeds duplicate (name, unit) input pairs. -/
def add_dish (db : DB) (name0 : String) (servings : Option Rat)
    (ingredients : List Ingredient) (tags : List String) :
    Except String (DB × Nat) :=
  let name := pyStrip name0
  if name = "" then .error "Название блюда не может быть пустым"
  else if db.dishes.any (fun d => sqliteLower d.name = sqliteLower name) then
    .error "Блюдо с таким названием уже существует"
  else
    let dish_id := db.next_dish_id
    let newIngs := (ingredients.filter (fun i => i.name ≠ "")).map fun i =>
      IngredientRow.mk dish_id i.name i.quantity i.unit
        i.calories i.protein i.fat i.carbs
    let newTags := tags.foldl
      (fun acc t =>
        let c := pyLower (pyStrip t)
        if c ≠ "" ∧ c ∉ acc then acc ++ [c] else acc) []
    .ok
      ({ db with
          dishes := db.dishes ++ [⟨dish_id, name, some (orElse1 servings)⟩],
          dish_ingredients := db.dish_ingredients ++ newIngs,
          dish_tags := db.dish_tags ++ newTags.map (TagRow.mk dish_id),
          next_dish_id := db.next_dish_id + 1 },
        dish_id)

/-- A store already holding the dish "борщ". -/
def borschDb : DB :=
  { dishes := [⟨1, "борщ", some 1⟩], dish_ingredients := [], dish_tags := [],
    meal_plans := [], reminders := [], next_dish_id := 2 }

/-- C6's failing input: "Борщ" and "борщ" are equal case-insensitively
(Python/Unicode lowercasing identifies them), but SQLite's built-in `LOWER`
folds only ASCII, so the duplicate check does not fire and `add_dish`
inserts a second dish row instead of failing validation. -/
theorem add_dish_cyrillic_duplicate_accepted :
    pyLower "Борщ" = pyLower "борщ" ∧
    sqliteLower "Борщ" ≠ sqliteLower "борщ" ∧
    (add_dish borschDb "Борщ" (some 1) [] []).toOption.map
        (fun p => p.1.dishes.length) = some 2 :=
  ⟨rfl, by decide, by decide⟩

/-- The ASCII side of the duplicate check: whenever some stored dish name
matches the stripped requested name under SQLite's `LOWER`, `add_dish`
reports the validation failure (and, returning before any insert, writes
nothing). -/
lemma add_dish_duplicate_rejected (db : DB) (name0 : String)
    (servings : Option Rat) (ingredients : List Ingredient)
    (tags : List String) (hne : pyStrip name0 ≠ "")
    (h : ∃ d ∈ db.dishes, sqliteLower d.name = sqliteLower (pyStrip name0)) :
    add_dish db name0 servings ingredients tags =
      .error "Блюдо с таким названием уже существует" := by
  obtain ⟨d, hd, hname⟩ := h
  have hc : (db.dishes.any fun d =>
      decide (sqliteLower d.name = sqliteLower (pyStrip name0))) = true :=
    List.any_eq_true.mpr ⟨d, hd, decide_eq_true hname⟩
  simp [add_dish, hne, hc]

/-- Embeds `database.delete_dish`: `DELETE FROM dishes WHERE id = ?` under
`PRAGMA foreign_keys = ON`.  The referential actions fire transitively:
ingredient, tag and meal-plan rows of the dish are cascade-deleted; the
cascade on `meal_plans` in turn cascade-deletes every `reminders` row whose
`plan_id` references a deleted plan; `reminders.dish_id` is set to NULL on
the surviving reminders that referenced the dish.  Returns
`cursor.rowcount > 0`. -/
def delete_dish (db : DB) (dish_id : Nat) : DB × Bool :=
  if db.dishes.any (fun d => d.id = dish_id) then
    let deletedPlans :=
      (db.meal_plans.filter (fun p => p.dish_id = dish_id)).map
        (fun p => p.id)
    ({ db with
        dishes := db.dishes.filter (fun d => ¬ d.id = dish_id),
        dish_ingredients :=
          db.dish_ingredients.filter (fun i => ¬ i.dish_id = dish_id),
        dish_tags := db.dish_tags.filter (fun t => ¬ t.dish_id = dish_id),
        meal_plans := db.meal_plans.filter (fun p => ¬ p.dish_id = dish_id),
        reminders :=
          (db.reminders.filter
            (fun r => ¬ (r.plan_id.any fun pid => pid ∈ deletedPlans))).map
            fun r =>
              if r.dish_id = some dish_id then { r with dish_id := none }
              else r },
      true)
  else (db, false)

/-- A reminder whose `plan_id` references some meal-plan entry of dish
`did` — the rows removed by the transitive cascade
dishes → meal_plans → reminders. -/
def reminderPlanOfDish (db : DB) (did : Nat) (r : ReminderRow) : Prop :=
  ∃ p ∈ db.meal_plans, p.dish_id = did ∧ r.plan_id = some p.id

lemma cascaded_iff (db : DB) (did : Nat) (r : ReminderRow) :
    (r.plan_id.any fun pid =>
      pid ∈ (db.meal_plans.filter fun p => p.dish_id = did).map
        (fun p => p.id)) = true ↔
    reminderPlanOfDish db did r := by
  cases hpid : r.plan_id with
  | none => simp [Option.any, reminderPlanOfDish, hpid]
  | some pid =>
    simp only [Option.any, reminderPlanOfDish, hpid, decide_eq_true_eq,
      List.mem_map, List.mem_filter]
    constructor
    · rintro ⟨p, ⟨hp, hdish⟩, hid⟩
      exact ⟨p, hp, hdish, by rw [hid]⟩
    · rintro ⟨p, hp, hdish, hid⟩
      refine ⟨p, ⟨hp, hdish⟩, ?_⟩
      injection hid with hid
      exact hid.symm

/-- One dish, one meal-plan entry for it, and one reminder referencing both
the dish (`dish_id`) and the plan (`plan_id`) — the shape every reminder
created by the planning dialog has. -/
def c7Db : DB :=
  { dishes := [⟨1, "Суп", none⟩],
    dish_ingredients := [], dish_tags := [],
    meal_plans := [⟨10, "u", 5, 1, "2024-06-01", "Обед", none, none⟩],
    reminders := [⟨100, "u", 5, some 1, some 10, 0, "напоминание", "job_10_0"⟩],
    next_dish_id := 2 }

/-- Counterexample to C7 as stated: the reminder references the deleted
recipe, so the claim says its row survives with a nulled recipe reference;
instead the transitive cascade dishes → meal_plans → reminders deletes the
row outright (`reminders.plan_id ... ON DELETE CASCADE`). -/
theorem delete_dish_reminder_removed_counterexample :
    (delete_dish c7Db 1).2 = true ∧ (delete_dish c7Db 1).1.reminders = [] := by
  constructor <;> decide

/-- C7 (amended: a reminder whose `plan_id` references a meal-plan entry of
the deleted recipe is removed by the transitive cascade
dishes → meal_plans → reminders, not preserved): deleting an existing recipe
reports success; exactly the recipe's own rows disappear from `dishes`,
`dish_ingredients`, `dish_tags` and `meal_plans` (rows of other recipes are
untouched); and the surviving reminders are exactly the original reminders
not tied to a deleted plan, with the recipe reference nulled where it pointed
at the deleted recipe and the row otherwise intact. -/
theorem delete_dish_cascade (db : DB) (did : Nat)
    (hd : ∃ d ∈ db.dishes, d.id = did) :
    (delete_dish db did).2 = true ∧
    (∀ d : Dish, d ∈ (delete_dish db did).1.dishes ↔
      d ∈ db.dishes ∧ ¬ d.id = did) ∧
    (∀ i : IngredientRow, i ∈ (delete_dish db did).1.dish_ingredients ↔
      i ∈ db.dish_ingredients ∧ ¬ i.dish_id = did) ∧
    (∀ t : TagRow, t ∈ (delete_dish db did).1.dish_tags ↔
      t ∈ db.dish_tags ∧ ¬ t.dish_id = did) ∧
    (∀ p : MealPlanRow, p ∈ (delete_dish db did).1.meal_plans ↔
      p ∈ db.meal_plans ∧ ¬ p.dish_id = did) ∧
    (∀ r' : ReminderRow, r' ∈ (delete_dish db did).1.reminders ↔
      ∃ r ∈ db.reminders, ¬ reminderPlanOfDish db did r ∧
        r' = if r.dish_id = some did then { r with dish_id := none }
             else r) := by
  obtain ⟨d0, hd0, hdid⟩ := hd
  have hany : (db.dishes.any fun d => decide (d.id = did)) = true :=
    List.any_eq_true.mpr ⟨d0, hd0, decide_eq_true hdid⟩
  refine ⟨?_, ?_, ?_, ?_, ?_, ?_⟩
  · simp [delete_dish, hany]
  · intro d
    simp [delete_dish, hany, List.mem_filter]
  · intro i
    simp [delete_dish, hany, List.mem_filter]
  · intro t
    simp [delete_dish, hany, List.mem_filter]
  · intro p
    simp [delete_dish, hany, List.mem_filter]
  · intro r'
    simp only [delete_dish, hany, if_true, List.mem_map, List.mem_filter,
      decide_eq_true_eq, cascaded_iff]
    constructor
    · rintro ⟨r, ⟨hr, hnc⟩, hf⟩
      exact ⟨r, hr, hnc, hf.symm⟩
    · rintro ⟨r, hr, hnc, hf⟩
      exact ⟨r, ⟨hr, hnc⟩, hf.symm⟩

/-- A store with two dishes and two reminders, one tied to a plan of the
dish being deleted. -/
def w7Db : DB :=
  { dishes := [⟨1, "Суп", none⟩, ⟨2, "Чай", none⟩],
    dish_ingredients := [⟨1, "морковь", none, none, none, none, none, none⟩],
    dish_tags := [⟨1, "суп"⟩],
    meal_plans := [⟨10, "u", 5, 1, "2024-06-01", "Обед", none, none⟩],
    reminders := [⟨100, "u", 5, some 1, some 10, 0, "m", "j1"⟩,
                  ⟨101, "u", 5, some 1, none, 0, "m", "j2"⟩],
    next_dish_id := 3 }

/-- Witness for C7's amended theorem at `w7Db`. -/
theorem delete_dish_cascade_witness : (delete_dish w7Db 1).2 = true :=
  (delete_dish_cascade w7Db 1
    ⟨⟨1, "Суп", none⟩, List.mem_cons_self _ _, rfl⟩).1

/-- Embeds `database.delete_meal_plan(plan_id, user_id)`:
`DELETE FROM meal_plans WHERE id = ? AND user_id = ?`, returning
`cursor.rowcount > 0`; under `PRAGMA foreign_keys = ON` the deletion
cascades to `reminders` rows whose `plan_id` references a deleted plan. -/
def delete_meal_plan (db : DB) (plan_id : Nat) (user_id : String) :
    DB × Bool :=
  let affected :=
    db.meal_plans.any fun p => p.id = plan_id ∧ p.user_id = user_id
  ({ db with
      meal_plans := db.meal_plans.filter
        (fun p => ¬ (p.id = plan_id ∧ p.user_id = user_id)),
      reminders := db.reminders.filter fun r =>
        ¬ db.meal_plans.any fun p =>
          p.id = plan_id ∧ p.user_id = user_id ∧ r.plan_id = some p.id },
    affected)

/-- C10: the delete-plan-entry operation is user-scoped: it reports `true`
exactly when a plan row with the given id belongs to the given user; when no
such row exists (in particular when the entry belongs to a different user)
the store is returned unchanged; and after a successful deletion no plan row
with that id and owner remains. -/
theorem delete_meal_plan_user_scoped (db : DB) (pid : Nat) (uid : String) :
    ((delete_meal_plan db pid uid).2 = true ↔
      ∃ p ∈ db.meal_plans, p.id = pid ∧ p.user_id = uid) ∧
    ((∀ p ∈ db.meal_plans, ¬ (p.id = pid ∧ p.user_id = uid)) →
      (delete_meal_plan db pid uid).1 = db) ∧
    (∀ p ∈ (delete_meal_plan db pid uid).1.meal_plans,
      ¬ (p.id = pid ∧ p.user_id = uid)) := by
  refine ⟨?_, ?_, ?_⟩
  · simp [delete_meal_plan, List.any_eq_true]
  · intro hnone
    have h1 : db.meal_plans.filter
        (fun p => ¬ (p.id = pid ∧ p.user_id = uid)) = db.meal_plans := by
      apply List.filter_eq_self.mpr
      intro p hp
      exact decide_eq_true (hnone p hp)
    have h2 : (db.reminders.filter fun r =>
        ¬ db.meal_plans.any fun p =>
          p.id = pid ∧ p.user_id = uid ∧ r.plan_id = some p.id)
        = db.reminders := by
      apply List.filter_eq_self.mpr
      intro r _
      apply decide_eq_true
      intro habs
      obtain ⟨p, hp, h⟩ := List.any_eq_true.mp habs
      have h' := of_decide_eq_true h
      exact hnone p hp ⟨h'.1, h'.2.1⟩
    simp only [delete_meal_plan]
    rw [h1, h2]
  · intro p hp
    have h := List.mem_filter.mp hp
    have h' := of_decide_eq_true h.2
    exact h'

/-- One plan entry owned by "alice". -/
def c10Db : DB :=
  { dishes := [⟨1, "Суп", none⟩], dish_ingredients := [], dish_tags := [],
    meal_plans := [⟨1, "alice", 5, 1, "2024-06-01", "Обед", none, none⟩],
    reminders := [], next_dish_id := 2 }

/-- Witness for C10: deleting plan 1 as "bob" returns false and leaves the
store unchanged; deleting it as its owner "alice" returns true. -/
theorem delete_meal_plan_user_scoped_witness :
    (delete_meal_plan c10Db 1 "bob").2 = false ∧
    (delete_meal_plan c10Db 1 "bob").1 = c10Db ∧
    (delete_meal_plan c10Db 1 "alice").2 = true := by
  have hbob := delete_meal_plan_user_scoped c10Db 1 "bob"
  have halice := delete_meal_plan_user_scoped c10Db 1 "alice"
  refine ⟨?_, ?_, ?_⟩
  · have hnp : ¬ ∃ p ∈ c10Db.meal_plans, p.id = 1 ∧ p.user_id = "bob" := by
      decide
    cases hx : (delete_meal_plan c10Db 1 "bob").2 with
    | false => rfl
    | true => exact absurd (hbob.1.mp hx) hnp
  · exact hbob.2.1 (by decide)
  · exact halice.1.mpr
      ⟨⟨1, "alice", 5, 1, "2024-06-01", "Обед", none, none⟩,
       List.mem_singleton_self _, rfl, rfl⟩

/-! ## Reminder jobs (`states.send_reminder_job`,
`handlers.schedule_existing_reminders`) -/

/-- Embeds `database.remove_reminder`: `DELETE FROM reminders WHERE id = ?`. -/
def remove_reminder (db : DB) (reminder_id : Nat) : DB :=
  { db with
    reminders := db.reminders.filter fun r => ¬ r.id = reminder_id }

/-- The `job.data` payload carried by a reminder job (the fields
`send_reminder_job` reads; `reminder_time`, `plan_id`, `dish_id` and
`user_id` ride along unread except by `log_action`, which writes to the
unmodelled `user_actions` table). -/
structure JobData where
  chat_id : Option Int
  message : String
  reminder_id : Option Nat
deriving Repr, DecidableEq

/-- Embeds `states.send_reminder_job`, with the delivery outcome explicit:
`sendOk = true` models `context.bot.send_message` returning normally,
`false` models it raising.  The first component is the handler's outcome —
`.error ()` when the exception propagates out (there is no try/except in the
code, so everything after the send is skipped) — and the second the
resulting store.  On a normal send the row is removed only when the job
carries a truthy reminder id (`if reminder_id:` — Python's `None` and `0`
are falsy). -/
def send_reminder_job (data : JobData) (sendOk : Bool) (db : DB) :
    Except Unit Unit × DB :=
  match data.chat_id with
  | none => (.ok (), db)
  | some _ =>
    if sendOk then
      match data.reminder_id with
      | some rid => if rid ≠ 0 then (.ok (), remove_reminder db rid)
                    else (.ok (), db)
      | none => (.ok (), db)
    else (.error (), db)

/-- A store holding the reminder row the armed job refers to. -/
def c8Db : DB :=
  { dishes := [], dish_ingredients := [], dish_tags := [], meal_plans := [],
    reminders := [⟨5, "u", 1, none, none, 0, "Пора готовить", "job_5"⟩],
    next_dish_id := 1 }

/-- Counterexample to C8 as stated: when the send raises, the handler's
`await context.bot.send_message` has no surrounding try/except, so the
exception propagates and `database.remove_reminder` is never reached — the
row is NOT deleted (the store is unchanged and still holds reminder 5). -/
theorem send_reminder_job_failure_keeps_row_counterexample :
    (send_reminder_job ⟨some 1, "Пора готовить", some 5⟩ false c8Db).1
      = .error () ∧
    (send_reminder_job ⟨some 1, "Пора готовить", some 5⟩ false c8Db).2
      = c8Db ∧
    c8Db.reminders.length = 1 :=
  ⟨rfl, rfl, rfl⟩

/-- C8 (amended: on delivery failure the exception propagates and the row is
NOT deleted — deletion is skipped, and no retry happens inside the handler;
the row is deleted only when the send succeeds and the job carries a truthy
reminder id): for a job with a chat id and a nonzero reminder id, a failing
send yields the unchanged store with the exception propagating, and a
successful send deletes exactly that reminder row. -/
theorem send_reminder_job_delete_on_success_only (data : JobData) (db : DB)
    (cid : Int) (rid : Nat) (hc : data.chat_id = some cid)
    (hr : data.reminder_id = some rid) (hrid : rid ≠ 0) :
    send_reminder_job data false db = (.error (), db) ∧
    send_reminder_job data true db = (.ok (), remove_reminder db rid) := by
  constructor <;> simp [send_reminder_job, hc, hr, hrid]

/-- Witness for C8's amended theorem: with reminder 5 armed, the failing
send keeps the row, the successful send removes it. -/
theorem send_reminder_job_delete_on_success_only_witness :
    send_reminder_job ⟨some 1, "Пора готовить", some 5⟩ false c8Db
      = (.error (), c8Db) ∧
    send_reminder_job ⟨some 1, "Пора готовить", some 5⟩ true c8Db
      = (.ok (), remove_reminder c8Db 5) :=
  send_reminder_job_delete_on_success_only
    ⟨some 1, "Пора готовить", some 5⟩ c8Db 1 5 rfl rfl (by decide)

/-- One job armed by `handlers.schedule_existing_reminders` through
`application.job_queue.run_once(send_reminder_job, when=..., name=..., data=...)`. -/
structure ArmedJob where
  delay : Rat
  name : String
  chat_id : Int
  message : String
  reminder_time : Rat
  reminder_id : Nat
  plan_id : Option Nat
  dish_id : Option Nat
  user_id : String
deriving Repr, DecidableEq

/-- Embeds `handlers.schedule_existing_reminders`: read every reminder row, compute
`delta = remind_at - now` and arm a one-shot job with delay
`max(delta, timedelta(seconds=1))`.  Times are in seconds.  (`remind_at` is
parsed with `datetime.fromisoformat`; rows written by the code always store
`isoformat()` output, so the `except ValueError: continue` guard never fires
on them and is not modelled.) -/
def schedule_existing_reminders (reminders : List ReminderRow) (now : Rat) :
    List ArmedJob :=
  reminders.map fun r =>
    { delay := max (r.remind_at - now) 1,
      name := r.job_name, chat_id := r.chat_id, message := r.message,
      reminder_time := r.remind_at, reminder_id := r.id,
      plan_id := r.plan_id, dish_id := r.dish_id, user_id := r.user_id }

/-- C9: every persisted reminder read by the recovery pass is re-armed, with
delay `remind_at − now` floored at one second; a fire time in the past or
within one second of now yields exactly the one-second floor instead of the
reminder being rejected or dropped. -/
theorem schedule_existing_reminders_delay (reminders : List ReminderRow)
    (now : Rat) (r : ReminderRow) (hr : r ∈ reminders) :
    ∃ j ∈ schedule_existing_reminders reminders now,
      j.reminder_id = r.id ∧ j.chat_id = r.chat_id ∧
      j.message = r.message ∧ j.name = r.job_name ∧
      j.delay = max (r.remind_at - now) 1 ∧ 1 ≤ j.delay ∧
      (r.remind_at ≤ now + 1 → j.delay = 1) := by
  refine ⟨_, List.mem_map_of_mem _ hr, rfl, rfl, rfl, rfl, rfl,
    le_max_right _ _, ?_⟩
  intro hpast
  have : r.remind_at - now ≤ 1 := by linarith
  exact max_eq_right this

/-- A reminder whose stored fire time is 100 seconds in the past. -/
def pastReminder : ReminderRow :=
  ⟨7, "u", 1, none, none, 0, "Пора готовить", "job_7"⟩

/-- Witness for C9: recovering at `now = 100` re-arms the overdue reminder
with the one-second floor. -/
theorem schedule_existing_reminders_delay_witness :
    ∃ j ∈ schedule_existing_reminders [pastReminder] 100,
      j.reminder_id = pastReminder.id ∧ j.chat_id = pastReminder.chat_id ∧
      j.message = pastReminder.message ∧ j.name = pastReminder.job_name ∧
      j.delay = max (pastReminder.remind_at - 100) 1 ∧ 1 ≤ j.delay ∧
      (pastReminder.remind_at ≤ 100 + 1 → j.delay = 1) :=
  schedule_existing_reminders_delay [pastReminder] 100 pastReminder
    (List.mem_singleton_self _)
